import Mathlib

/-!
Verification of the landmarking subsystem of pymfe (`src/pymfe/landmarking.py`).

The module `MFELandmarking` exposes a precompute step building a stratified
k-fold split plan, an `importance` helper ranking columns by a fitted decision
tree's impurity-reduction importances, and seven probe methods
(`ft_best_node`, `ft_random_node`, `ft_worst_node`, `ft_linear_discr`,
`ft_naive_bayes`, `ft_one_nn`, `ft_elite_nn`), each looping over the split
plan, fitting a fresh scikit-learn model per fold, predicting on the held-out
rows and appending the score.

The scikit-learn classifiers themselves are external library code: they enter
the embedding as parameters (`ModelFn` for a fit-then-predict pass,
`FeatImpFn` for the fitted tree's `feature_importances_` vector).  Model
fitting may fail (degenerate folds), so a `ModelFn` returns `Except`.  The
ambient numpy global generator used by `np.random.randint` in
`ft_random_node` is embedded as an explicit entropy stream threaded through
the call, so that its effect (and the seed's lack of effect on it) is visible.
-/

namespace PyMFE

/-- Attribute matrix: a list of rows, each a list of rational entries
(numeric data after upstream encoding). -/
abbrev Matrix := List (List ℚ)

/-- Class labels: discrete, encoded as naturals. -/
abbrev Label := Nat

/-- Number of columns of the attribute matrix (`X.shape[1]`). -/
def ncols (X : Matrix) : Nat := (X.headD []).length

/-- Numpy fancy row indexing `X[idx, :]`: a fresh matrix of the selected rows. -/
def selRows (idx : List Nat) (X : Matrix) : Matrix := idx.map (fun i => X.getD i [])

/-- Numpy fancy column indexing `X[:, cs]`: a fresh matrix of the selected columns. -/
def selCols (cs : List Nat) (X : Matrix) : Matrix :=
  X.map (fun r => cs.map (fun c => r.getD c 0))

/-- Numpy fancy indexing `y[idx]` on the target vector. -/
def selLabels (idx : List Nat) (y : List Label) : List Label :=
  idx.map (fun i => y.getD i 0)

/-- The `StratifiedKFold` validator object built by
`precompute_landmarking_class`: it records the requested fold count and the
seed (the seed is unused by the split, since `shuffle` is left at its
default `False`). -/
structure StratifiedKFold where
  n_splits : Nat
  random_state : Option Nat
deriving DecidableEq

/-- Modelled from the spec: class encoding used by the external
`StratifiedKFold.split` (scikit-learn code, not part of this repository).
The distinct labels of `y`, sorted ascending — `np.unique(y)`. -/
def classesOf (y : List Label) : List Label :=
  (List.insertionSort (fun a b => a ≤ b) y).dedup

/-- Modelled from the spec: label vector encoded as positions into the sorted
distinct labels. -/
def yEnc (y : List Label) : List Nat :=
  y.map (fun v => (classesOf y).indexOf v)

/-- Modelled from the spec: the encoded labels in sorted order (`y_order`). -/
def sortedEnc (y : List Label) : List Nat :=
  List.insertionSort (fun a b => a ≤ b) (yEnc y)

/-- Modelled from the spec: how many members of class `c` land in fold `i`,
namely the count of `c` in the `i`-th round-robin slice `y_order[i::k]` of the
sorted encoded labels. -/
def sliceCount (y : List Label) (k i c : Nat) : Nat :=
  (((List.range (sortedEnc y).length).filter (fun j => j % k == i)).map
    (fun j => (sortedEnc y).getD j 0)).count c

/-- Modelled from the spec: the ascending sequence of fold ids assigned to the
members of class `c`, fold `i` repeated `sliceCount y k i c` times. -/
def foldsForClass (y : List Label) (k c : Nat) : List Nat :=
  ((List.range k).map (fun i => List.replicate (sliceCount y k i c) i)).flatten

/-- Modelled from the spec: the rank of row `j` among the rows of its own
class that precede it. -/
def classRank (y : List Label) (j : Nat) : Nat :=
  ((yEnc y).take j).count ((yEnc y).getD j 0)

/-- Modelled from the spec: the test-fold id assigned to row `j` by the
stratified split — each row belongs to exactly one test fold. -/
def testFoldId (y : List Label) (k j : Nat) : Nat :=
  (foldsForClass y k ((yEnc y).getD j 0)).getD (classRank y j) 0

/-- Modelled from the spec: the test indices of fold `i`. -/
def testIndices (y : List Label) (k i : Nat) : List Nat :=
  (List.range y.length).filter (fun j => testFoldId y k j == i)

/-- Modelled from the spec: the train indices of fold `i` — all rows not in
fold `i`'s test set. -/
def trainIndices (y : List Label) (k i : Nat) : List Nat :=
  (List.range y.length).filter (fun j => testFoldId y k j != i)

/-- Modelled from the spec: `skf.split(X, y)` — the ordered split plan, one
`(train_index, test_index)` pair per fold. -/
def skfSplit (skf : StratifiedKFold) (X : Matrix) (y : List Label) :
    List (List Nat × List Nat) :=
  (List.range skf.n_splits).map
    (fun i => (trainIndices y skf.n_splits i, testIndices y skf.n_splits i))

/-- The size of the smallest class of `y` (`y.length` when `y` has no class). -/
def minClassSize (y : List Label) : Nat :=
  ((classesOf y).map (fun c => y.count c)).foldr min y.length

/-- Embedding of `MFELandmarking.precompute_landmarking_class`: returns the
update mapping; the Python subset test of the singleton key set against
`kwargs` is membership of the key `"skf"` among the supplied precomputed
values. -/
def precompute_landmarking_class (X : Option Matrix) (y : Option (List Label))
    (folds : Nat) (random_state : Option Nat) (kwargs : List String) :
    List (String × StratifiedKFold) :=
  if X.isSome ∧ y.isSome ∧ "skf" ∉ kwargs then
    [("skf", { n_splits := folds, random_state := random_state })]
  else []

/-- External fit-then-predict pass of one scikit-learn classifier:
`model.fit(X_train, y_train); model.predict(X_test)`.  Fitting may fail on a
degenerate training partition, hence `Except`. -/
abbrev ModelFn := Matrix → List Label → Matrix → Except String (List Label)

/-- Caller-supplied scoring function `score(y_test, pred)`. -/
abbrev ScoreFn := List Label → List Label → ℚ

/-- One train/test index pair of the split plan. -/
abbrev Fold := List Nat × List Nat

/-- The ambient numpy global generator, embedded as the stream of values it
will produce. -/
abbrev Rng := List Nat

/-- External `feature_importances_` of a `DecisionTreeClassifier(random_state)`
fitted on the given data: one importance per column. -/
abbrev FeatImpFn := Matrix → List Label → Option Nat → List ℚ

/-- Embedding of `np.argsort` over a vector of importances: the column indices sorted
ascending by their importance value. -/
def argsort (v : List ℚ) : List Nat :=
  List.insertionSort (fun i j => v.getD i 0 ≤ v.getD j 0) (List.range v.length)

/-- Embedding of `MFELandmarking.importance`: fit an unconstrained decision tree and argsort
its per-column importances ascending. -/
def importance (treeFI : FeatImpFn) (X : Matrix) (y : List Label)
    (random_state : Option Nat) : List Nat :=
  argsort (treeFI X y random_state)

/-- The ambient program state a probe call can see besides its own locals:
the fitted data, the shared split-plan object and the numpy global generator. -/
structure ProcState where
  X : Matrix
  y : List Label
  skf : StratifiedKFold
  rng : Rng

/-- Loop body of `ft_best_node` for one fold: select train/test rows (all
columns), fit-and-predict the depth-1 tree, score. -/
def bestNodeFold (X : Matrix) (y : List Label) (score : ScoreFn)
    (model : ModelFn) (fd : Fold) : Except String ℚ :=
  let X_train := selRows fd.1 X
  let X_test := selRows fd.2 X
  let y_train := selLabels fd.1 y
  let y_test := selLabels fd.2 y
  (model X_train y_train X_test).map (fun pred => score y_test pred)

/-- Loop body of `ft_random_node` for one fold, given the already drawn random
column `attr`: select train/test rows restricted to that single column. -/
def randomNodeFold (X : Matrix) (y : List Label) (score : ScoreFn)
    (model : ModelFn) (attr : Nat) (fd : Fold) : Except String ℚ :=
  let X_train := selCols [attr] (selRows fd.1 X)
  let X_test := selCols [attr] (selRows fd.2 X)
  let y_train := selLabels fd.1 y
  let y_test := selLabels fd.2 y
  (model X_train y_train X_test).map (fun pred => score y_test pred)

/-- Loop body of `ft_worst_node` for one fold: recompute the importance
ranking on this fold's training subset and keep only the column at rank
position 0 (`importance[0]`, the least important). -/
def worstNodeFold (treeFI : FeatImpFn) (X : Matrix) (y : List Label)
    (score : ScoreFn) (model : ModelFn) (random_state : Option Nat)
    (fd : Fold) : Except String ℚ :=
  let imp := importance treeFI (selRows fd.1 X) (selLabels fd.1 y) random_state
  let X_train := selCols [imp.getD 0 0] (selRows fd.1 X)
  let X_test := selCols [imp.getD 0 0] (selRows fd.2 X)
  let y_train := selLabels fd.1 y
  let y_test := selLabels fd.2 y
  (model X_train y_train X_test).map (fun pred => score y_test pred)

/-- Loop body of `ft_elite_nn` for one fold: recompute the importance ranking
on this fold's training subset and keep only the column at rank position -1
(`importance[-1]`, the most important). -/
def eliteNNFold (treeFI : FeatImpFn) (X : Matrix) (y : List Label)
    (score : ScoreFn) (model : ModelFn) (random_state : Option Nat)
    (fd : Fold) : Except String ℚ :=
  let imp := importance treeFI (selRows fd.1 X) (selLabels fd.1 y) random_state
  let X_train := selCols [imp.getLastD 0] (selRows fd.1 X)
  let X_test := selCols [imp.getLastD 0] (selRows fd.2 X)
  let y_train := selLabels fd.1 y
  let y_test := selLabels fd.2 y
  (model X_train y_train X_test).map (fun pred => score y_test pred)

/-- The common probe loop: iterate the split plan in order, score each fold,
collect the scores; the first fold whose body raises aborts the whole loop
and the exception propagates. -/
def foldLoop (body : Fold → Except String ℚ) : List Fold → Except String (List ℚ)
  | [] => .ok []
  | fd :: fs =>
    match body fd with
    | .error e => .error e
    | .ok q =>
      match foldLoop body fs with
      | .error e => .error e
      | .ok l => .ok (q :: l)

/-- The probe loop of `ft_random_node`: before each fold the column is drawn
from the ambient global generator (`np.random.randint(0, X.shape[1])`),
advancing it; an exception aborts the loop with the generator as advanced so
far. -/
def randomNodeLoop (body : Nat → Fold → Except String ℚ) (nc : Nat) :
    List Fold → Rng → Except String (List ℚ) × Rng
  | [], g => (.ok [], g)
  | fd :: fs, g =>
    let attr := g.headD 0 % nc
    let g1 := g.tail
    match body attr fd with
    | .error e => (.error e, g1)
    | .ok q =>
      let r := randomNodeLoop body nc fs g1
      match r.1 with
      | .error e => (.error e, r.2)
      | .ok l => (.ok (q :: l), r.2)

/-- Embedding of `MFELandmarking.ft_best_node`: depth-1 decision tree on all columns,
one score per fold of the split plan. -/
def ft_best_node (score : ScoreFn) (dtcStump : Option Nat → ModelFn)
    (random_state : Option Nat) (s : ProcState) :
    Except String (List ℚ) × ProcState :=
  (foldLoop (bestNodeFold s.X s.y score (dtcStump random_state))
    (skfSplit s.skf s.X s.y), s)

/-- Embedding of `MFELandmarking.ft_random_node`: depth-1 decision tree on one random
column per fold; the column is drawn from the ambient global generator, not
from `random_state`. -/
def ft_random_node (score : ScoreFn) (dtcStump : Option Nat → ModelFn)
    (random_state : Option Nat) (s : ProcState) :
    Except String (List ℚ) × ProcState :=
  let r := randomNodeLoop (randomNodeFold s.X s.y score (dtcStump random_state))
    (ncols s.X) (skfSplit s.skf s.X s.y) s.rng
  (r.1, { s with rng := r.2 })

/-- Embedding of `MFELandmarking.ft_worst_node`: depth-1 decision tree on the least
important column of each fold's training subset. -/
def ft_worst_node (treeFI : FeatImpFn) (score : ScoreFn)
    (dtcStump : Option Nat → ModelFn) (random_state : Option Nat)
    (s : ProcState) : Except String (List ℚ) × ProcState :=
  (foldLoop (worstNodeFold treeFI s.X s.y score (dtcStump random_state)
    random_state) (skfSplit s.skf s.X s.y), s)

/-- Embedding of `MFELandmarking.ft_linear_discr`: linear discriminant classifier on all
columns; takes no seed. -/
def ft_linear_discr (score : ScoreFn) (lda : ModelFn) (s : ProcState) :
    Except String (List ℚ) × ProcState :=
  (foldLoop (bestNodeFold s.X s.y score lda) (skfSplit s.skf s.X s.y), s)

/-- Embedding of `MFELandmarking.ft_naive_bayes`: Gaussian naive Bayes on all columns;
takes no seed. -/
def ft_naive_bayes (score : ScoreFn) (gnb : ModelFn) (s : ProcState) :
    Except String (List ℚ) × ProcState :=
  (foldLoop (bestNodeFold s.X s.y score gnb) (skfSplit s.skf s.X s.y), s)

/-- Embedding of `MFELandmarking.ft_one_nn`: 1-nearest-neighbor classifier on all columns;
takes no seed. -/
def ft_one_nn (score : ScoreFn) (knn1 : ModelFn) (s : ProcState) :
    Except String (List ℚ) × ProcState :=
  (foldLoop (bestNodeFold s.X s.y score knn1) (skfSplit s.skf s.X s.y), s)

/-- Embedding of `MFELandmarking.ft_elite_nn`: 1-nearest-neighbor classifier on the most
important column of each fold's training subset. -/
def ft_elite_nn (treeFI : FeatImpFn) (score : ScoreFn) (knn1 : ModelFn)
    (random_state : Option Nat) (s : ProcState) :
    Except String (List ℚ) × ProcState :=
  (foldLoop (eliteNNFold treeFI s.X s.y score knn1 random_state)
    (skfSplit s.skf s.X s.y), s)

/-! ### Concrete fixtures for evaluating the embedding -/

/-- A 4-row, 2-column dataset: column 0 is all zeros, column 1 all fives. -/
def Xex : Matrix := [[0, 5], [0, 5], [0, 5], [0, 5]]

/-- Two balanced classes. -/
def yex : List Label := [0, 1, 0, 1]

/-- Ambient state whose global generator will keep drawing column 0. -/
def sEx1 : ProcState := ⟨Xex, yex, ⟨2, none⟩, [0, 0]⟩

/-- Same data, split plan and seed as `sEx1`, but the global generator will
keep drawing column 1. -/
def sEx2 : ProcState := ⟨Xex, yex, ⟨2, none⟩, [1, 1]⟩

/-- A model family that always predicts label 0. -/
def constModel : Option Nat → ModelFn := fun _ _ _ X_test =>
  .ok (X_test.map (fun _ => 0))

/-- A scoring function that ignores its arguments. -/
def oneScore : ScoreFn := fun _ _ => 1

/-- A model family that thresholds the first column it is given: on `Xex` it
distinguishes which column was selected. -/
def colModel : Option Nat → ModelFn := fun _ _ _ X_test =>
  .ok (X_test.map (fun row => if (1 : ℚ) ≤ row.headD 0 then 1 else 0))

/-- Scores 1 exactly when the first prediction is label 1. -/
def headScore : ScoreFn := fun _ pred => if pred.headD 0 = 1 then 1 else 0

/-- A model whose fit always fails, as on a degenerate training partition. -/
def failModel : ModelFn := fun _ _ _ => .error "degenerate training partition"

/-- A fixed external importance vector: column 1 least important, column 0
most important. -/
def constFI : FeatImpFn := fun _ _ _ => [3, 1]

/-! ### General lemmas about the probe loops -/

/-- A successful `foldLoop` run has one score per fold, the score at position
`i` produced by the body on the `i`-th fold. -/
theorem foldLoop_ok (body : Fold → Except String ℚ) :
    ∀ (l : List Fold) (v : List ℚ), foldLoop body l = .ok v →
      v.length = l.length ∧
      ∀ (d : Fold) (i : Nat), i < l.length → body (l.getD i d) = .ok (v.getD i 0) := by
  intro l
  induction l with
  | nil =>
    intro v hv
    simp only [foldLoop] at hv
    cases hv
    exact ⟨rfl, by intro d i h; exact absurd h (by simp)⟩
  | cons fd fs ih =>
    intro v hv
    simp only [foldLoop] at hv
    cases hbody : body fd with
    | error e => rw [hbody] at hv; cases hv
    | ok q =>
      rw [hbody] at hv
      cases hrec : foldLoop body fs with
      | error e => rw [hrec] at hv; cases hv
      | ok l2 =>
        rw [hrec] at hv
        cases hv
        obtain ⟨hlen, hget⟩ := ih l2 hrec
        refine ⟨by simp [hlen], ?_⟩
        intro d i hi
        cases i with
        | zero => simpa using hbody
        | succ n =>
          simp only [List.getD_cons_succ]
          exact hget d n (by simpa using hi)

/-- If the body fails on some fold of the plan, the whole `foldLoop` run is an
exception: no score vector, partial or otherwise, is produced. -/
theorem foldLoop_error (body : Fold → Except String ℚ) (l : List Fold)
    (d : Fold) (i : Nat) (hi : i < l.length) (e : String)
    (hbody : body (l.getD i d) = .error e) :
    ∃ e2, foldLoop body l = .error e2 := by
  cases hr : foldLoop body l with
  | error e2 => exact ⟨e2, rfl⟩
  | ok v =>
    obtain ⟨-, hget⟩ := foldLoop_ok body l v hr
    rw [hget d i hi] at hbody
    cases hbody

/-- A successful `randomNodeLoop` run has one score per fold; the score at
position `i` comes from the `i`-th fold with the column drawn as the `i`-th
value of the ambient generator stream (reduced modulo the column count) —
independently of any seed. -/
theorem randomNodeLoop_ok (body : Nat → Fold → Except String ℚ) (nc : Nat) :
    ∀ (l : List Fold) (g : Rng) (v : List ℚ) (g2 : Rng),
      randomNodeLoop body nc l g = (.ok v, g2) →
      v.length = l.length ∧
      ∀ (d : Fold) (i : Nat), i < l.length →
        body ((g.drop i).headD 0 % nc) (l.getD i d) = .ok (v.getD i 0) := by
  intro l
  induction l with
  | nil =>
    intro g v g2 hv
    simp only [randomNodeLoop] at hv
    cases hv
    exact ⟨rfl, by intro d i h; exact absurd h (by simp)⟩
  | cons fd fs ih =>
    intro g v g2 hv
    simp only [randomNodeLoop] at hv
    cases hbody : body (g.headD 0 % nc) fd with
    | error e =>
      rw [hbody] at hv
      injection hv with h1 h2
      cases h1
    | ok q =>
      rw [hbody] at hv
      cases hrec : (randomNodeLoop body nc fs g.tail).1 with
      | error e =>
        rw [hrec] at hv
        injection hv with h1 h2
        cases h1
      | ok l2 =>
        rw [hrec] at hv
        injection hv with h1 h2
        injection h1 with h1
        cases h1
        have hfull : randomNodeLoop body nc fs g.tail =
            (.ok l2, (randomNodeLoop body nc fs g.tail).2) := by
          rw [← hrec]
        obtain ⟨hlen, hget⟩ :=
          ih g.tail l2 (randomNodeLoop body nc fs g.tail).2 hfull
        refine ⟨by simp [hlen], ?_⟩
        intro d i hi
        cases i with
        | zero => simpa using hbody
        | succ n =>
          simp only [List.getD_cons_succ, List.drop_succ_cons]
          have := hget d n (by simpa using hi)
          simpa [List.tail_drop] using this

/-- If the body fails on some fold of the plan at the column the ambient
generator supplies for it, `randomNodeLoop` ends in an exception. -/
theorem randomNodeLoop_error (body : Nat → Fold → Except String ℚ) (nc : Nat)
    (l : List Fold) (g : Rng) (d : Fold) (i : Nat) (hi : i < l.length)
    (e : String) (hbody : body ((g.drop i).headD 0 % nc) (l.getD i d) = .error e) :
    ∃ e2, (randomNodeLoop body nc l g).1 = .error e2 := by
  cases hr : (randomNodeLoop body nc l g).1 with
  | error e2 => exact ⟨e2, rfl⟩
  | ok v =>
    have hfull : randomNodeLoop body nc l g =
        (.ok v, (randomNodeLoop body nc l g).2) := by
      rw [← hr]
    obtain ⟨-, hget⟩ :=
      randomNodeLoop_ok body nc l g v (randomNodeLoop body nc l g).2 hfull
    rw [hget d i hi] at hbody
    cases hbody

/-! ### Properties of `argsort` -/

/-- The function `argsort` returns a permutation of all the column indices. -/
theorem argsort_perm (v : List ℚ) : (argsort v).Perm (List.range v.length) :=
  List.perm_insertionSort _ _

/-- The function `argsort` keeps one entry per column. -/
theorem argsort_length (v : List ℚ) : (argsort v).length = v.length := by
  have := (argsort_perm v).length_eq
  simpa using this

/-- Every entry of `argsort v` is a valid column index. -/
theorem argsort_mem_lt {v : List ℚ} {x : Nat} (hx : x ∈ argsort v) : x < v.length := by
  have := (argsort_perm v).mem_iff.mp hx
  simpa using this

/-- The output of `argsort` is sorted ascending by importance value. -/
theorem argsort_pairwise (v : List ℚ) :
    List.Pairwise (fun i j => v.getD i 0 ≤ v.getD j 0) (argsort v) := by
  haveI : IsTotal Nat (fun i j => v.getD i 0 ≤ v.getD j 0) :=
    ⟨fun a b => le_total _ _⟩
  haveI : IsTrans Nat (fun i j => v.getD i 0 ≤ v.getD j 0) :=
    ⟨fun a b c hab hbc => le_trans hab hbc⟩
  exact List.sorted_insertionSort _ _

/-- For a nonempty list, `getLastD` is the entry at the last position. -/
theorem getLastD_eq_getD {α : Type} (l : List α) (d : α) (h : l ≠ []) :
    l.getLastD d = l.getD (l.length - 1) d := by
  have hlen : l.length - 1 < l.length := by
    cases l with
    | nil => exact absurd rfl h
    | cons a t => simp
  rw [List.getLastD_eq_getLast?, List.getLast?_eq_getElem?,
    List.getD_eq_getElem l d hlen, List.getElem?_eq_getElem hlen]
  rfl

/-- The index at position 0 of `argsort v` is a valid column. -/
theorem argsort_getD_zero_lt (v : List ℚ) (hv : 0 < v.length) :
    (argsort v).getD 0 0 < v.length := by
  have h0 : 0 < (argsort v).length := by rw [argsort_length]; exact hv
  refine argsort_mem_lt ?_
  rw [List.getD_eq_getElem _ _ h0]
  exact List.getElem_mem h0

/-- The index at the last position of `argsort v` is a valid column. -/
theorem argsort_getLastD_lt (v : List ℚ) (hv : 0 < v.length) :
    (argsort v).getLastD 0 < v.length := by
  have hne : argsort v ≠ [] := by
    intro h
    rw [← List.length_eq_zero] at h
    rw [argsort_length] at h
    omega
  have h0 : (argsort v).length - 1 < (argsort v).length := by
    rw [argsort_length]; omega
  refine argsort_mem_lt ?_
  rw [getLastD_eq_getD _ _ hne, List.getD_eq_getElem _ _ h0]
  exact List.getElem_mem h0

/-- The column at rank position 0 of `argsort v` has minimal importance among
all columns. -/
theorem argsort_getD_zero_min (v : List ℚ) (hv : 0 < v.length)
    (j : Nat) (hj : j < v.length) :
    v.getD ((argsort v).getD 0 0) 0 ≤ v.getD j 0 := by
  have h0 : 0 < (argsort v).length := by rw [argsort_length]; exact hv
  have hjmem : j ∈ argsort v := by
    refine (argsort_perm v).mem_iff.mpr ?_
    simpa using hj
  obtain ⟨p, hp, hpj⟩ := List.mem_iff_getElem.mp hjmem
  rw [List.getD_eq_getElem _ _ h0]
  rcases Nat.eq_zero_or_pos p with hp0 | hp0
  · subst hp0
    rw [hpj]
  · have := (List.pairwise_iff_getElem.mp (argsort_pairwise v)) 0 p h0 hp hp0
    rw [hpj] at this
    exact this

/-- The column at the last rank position of `argsort v` has maximal importance
among all columns. -/
theorem argsort_getLastD_max (v : List ℚ) (hv : 0 < v.length)
    (j : Nat) (hj : j < v.length) :
    v.getD j 0 ≤ v.getD ((argsort v).getLastD 0) 0 := by
  have hne : argsort v ≠ [] := by
    intro h
    rw [← List.length_eq_zero] at h
    rw [argsort_length] at h
    omega
  have hlast : (argsort v).length - 1 < (argsort v).length := by
    rw [argsort_length]; omega
  have hjmem : j ∈ argsort v := by
    refine (argsort_perm v).mem_iff.mpr ?_
    simpa using hj
  obtain ⟨p, hp, hpj⟩ := List.mem_iff_getElem.mp hjmem
  rw [getLastD_eq_getD _ _ hne, List.getD_eq_getElem _ _ hlast]
  rcases Nat.lt_or_ge p ((argsort v).length - 1) with hplt | hpge
  · have := (List.pairwise_iff_getElem.mp (argsort_pairwise v)) p
      ((argsort v).length - 1) hp hlast hplt
    rw [hpj] at this
    exact this
  · have hpe : p = (argsort v).length - 1 := by omega
    subst hpe
    rw [hpj]

/-! ### Properties of the split plan -/

/-- Every fold id handed out by `foldsForClass` is a valid fold. -/
theorem foldsForClass_mem_lt {y : List Label} {k c x : Nat}
    (hx : x ∈ foldsForClass y k c) : x < k := by
  simp only [foldsForClass, List.mem_flatten, List.mem_map] at hx
  obtain ⟨l, ⟨i, hi, hl⟩, hxl⟩ := hx
  subst hl
  have := List.eq_of_mem_replicate hxl
  subst this
  simpa using hi

/-- Every row is assigned a valid test-fold id. -/
theorem testFoldId_lt (y : List Label) (k j : Nat) (hk : 0 < k) :
    testFoldId y k j < k := by
  unfold testFoldId
  rcases Nat.lt_or_ge (classRank y j)
    (foldsForClass y k ((yEnc y).getD j 0)).length with hlt | hge
  · refine foldsForClass_mem_lt (y := y) (c := (yEnc y).getD j 0) ?_
    rw [List.getD_eq_getElem _ _ hlt]
    exact List.getElem_mem hlt
  · rw [List.getD_eq_default _ _ hge]
    exact hk

/-- The split plan has exactly `n_splits` folds. -/
theorem skfSplit_length (skf : StratifiedKFold) (X : Matrix) (y : List Label) :
    (skfSplit skf X y).length = skf.n_splits := by
  simp [skfSplit]

/-- The `i`-th fold of the split plan is the train/test pair of fold `i`. -/
theorem skfSplit_getD (skf : StratifiedKFold) (X : Matrix) (y : List Label)
    (i : Nat) (hi : i < skf.n_splits) (d : Fold) :
    (skfSplit skf X y).getD i d =
      (trainIndices y skf.n_splits i, testIndices y skf.n_splits i) := by
  have hlen : i < (skfSplit skf X y).length := by rw [skfSplit_length]; exact hi
  rw [List.getD_eq_getElem _ _ hlen]
  simp [skfSplit]

/-- Membership in a fold's test set. -/
theorem mem_testIndices (y : List Label) (k i x : Nat) :
    x ∈ testIndices y k i ↔ x ∈ List.range y.length ∧ testFoldId y k x = i := by
  simp [testIndices, List.mem_filter]

/-- Membership in a fold's training set. -/
theorem mem_trainIndices (y : List Label) (k i x : Nat) :
    x ∈ trainIndices y k i ↔ x ∈ List.range y.length ∧ testFoldId y k x ≠ i := by
  simp [trainIndices, List.mem_filter]

/-- C2: for any dataset and fold count `k` (positive and at most the smallest
class size), the split plan built by `precompute_landmarking_class` yields
exactly `k` test index sets, pairwise disjoint, whose union is the whole index
range `0..N-1`, and each fold's training set is exactly the complement of its
test set. -/
theorem C2_split_plan_partition (X : Matrix) (y : List Label)
    (skf : StratifiedKFold) (hk : 0 < skf.n_splits)
    (hmin : skf.n_splits ≤ minClassSize y) :
    (skfSplit skf X y).length = skf.n_splits ∧
    (∀ i1 i2, i1 < skf.n_splits → i2 < skf.n_splits → i1 ≠ i2 → ∀ x,
      x ∈ ((skfSplit skf X y).getD i1 ([], [])).2 →
      x ∉ ((skfSplit skf X y).getD i2 ([], [])).2) ∧
    (∀ x, (∃ i, i < skf.n_splits ∧ x ∈ ((skfSplit skf X y).getD i ([], [])).2) ↔
      x ∈ List.range y.length) ∧
    (∀ i, i < skf.n_splits → ∀ x, x ∈ List.range y.length →
      (x ∈ ((skfSplit skf X y).getD i ([], [])).1 ↔
        x ∉ ((skfSplit skf X y).getD i ([], [])).2)) := by
  refine ⟨skfSplit_length skf X y, ?_, ?_, ?_⟩
  · intro i1 i2 h1 h2 hne x hx1 hx2
    rw [skfSplit_getD skf X y i1 h1] at hx1
    rw [skfSplit_getD skf X y i2 h2] at hx2
    rw [mem_testIndices] at hx1 hx2
    exact hne (hx1.2 ▸ hx2.2 ▸ rfl)
  · intro x
    constructor
    · rintro ⟨i, hi, hx⟩
      rw [skfSplit_getD skf X y i hi] at hx
      exact ((mem_testIndices y skf.n_splits i x).mp hx).1
    · intro hx
      refine ⟨testFoldId y skf.n_splits x, testFoldId_lt y skf.n_splits x hk, ?_⟩
      rw [skfSplit_getD skf X y _ (testFoldId_lt y skf.n_splits x hk)]
      exact (mem_testIndices y skf.n_splits _ x).mpr ⟨hx, rfl⟩
  · intro i hi x hx
    rw [skfSplit_getD skf X y i hi]
    rw [mem_trainIndices, mem_testIndices]
    constructor
    · intro h hc
      exact h.2 hc.2
    · intro h
      exact ⟨hx, fun hc => h ⟨hx, hc⟩⟩

/-- Witness for C2 on a concrete dataset: 4 rows, two classes of size 2,
2 folds. -/
theorem C2_split_plan_partition_witness :
    (skfSplit ⟨2, none⟩ [[1],[2],[3],[4]] [0,1,0,1]).length = 2 ∧
    (∀ i1 i2, i1 < 2 → i2 < 2 → i1 ≠ i2 → ∀ x,
      x ∈ ((skfSplit ⟨2, none⟩ [[1],[2],[3],[4]] [0,1,0,1]).getD i1 ([], [])).2 →
      x ∉ ((skfSplit ⟨2, none⟩ [[1],[2],[3],[4]] [0,1,0,1]).getD i2 ([], [])).2) ∧
    (∀ x, (∃ i, i < 2 ∧
        x ∈ ((skfSplit ⟨2, none⟩ [[1],[2],[3],[4]] [0,1,0,1]).getD i ([], [])).2) ↔
      x ∈ List.range 4) ∧
    (∀ i, i < 2 → ∀ x, x ∈ List.range 4 →
      (x ∈ ((skfSplit ⟨2, none⟩ [[1],[2],[3],[4]] [0,1,0,1]).getD i ([], [])).1 ↔
        x ∉ ((skfSplit ⟨2, none⟩ [[1],[2],[3],[4]] [0,1,0,1]).getD i ([], [])).2)) :=
  C2_split_plan_partition [[1],[2],[3],[4]] [0,1,0,1] ⟨2, none⟩
    (by decide) (by decide)

/-! ### Precompute interface -/

/-- C4: if the key `skf` is already present among the precomputed values,
`precompute_landmarking_class` returns an empty update; if it is absent and
`X` and `y` are supplied, the update carries the split plan under the fixed
key `skf`. -/
theorem C4_precompute_skf_reuse (X : Option Matrix) (y : Option (List Label))
    (folds : Nat) (random_state : Option Nat) (kwargs : List String) :
    ("skf" ∈ kwargs →
      precompute_landmarking_class X y folds random_state kwargs = []) ∧
    (∀ Xv yv, X = some Xv → y = some yv → "skf" ∉ kwargs →
      precompute_landmarking_class X y folds random_state kwargs =
        [("skf", ⟨folds, random_state⟩)]) := by
  constructor
  · intro hmem
    unfold precompute_landmarking_class
    rw [if_neg]
    intro h
    exact h.2.2 hmem
  · intro Xv yv hX hy hmem
    subst hX
    subst hy
    unfold precompute_landmarking_class
    rw [if_pos ⟨rfl, rfl, hmem⟩]

/-- Witness for C4: with `skf` already supplied the update is empty; without
it the update carries the plan. -/
theorem C4_precompute_skf_reuse_witness :
    precompute_landmarking_class (some Xex) (some yex) 2 none ["skf"] = [] ∧
    precompute_landmarking_class (some Xex) (some yex) 2 none [] =
      [("skf", ⟨2, none⟩)] :=
  ⟨(C4_precompute_skf_reuse (some Xex) (some yex) 2 none ["skf"]).1
      (by simp),
    (C4_precompute_skf_reuse (some Xex) (some yex) 2 none []).2 Xex yex
      rfl rfl (by simp)⟩

/-- C10: when the attribute matrix or the target vector is absent,
`precompute_landmarking_class` returns an empty update and never builds a
split plan, even when the key `skf` is absent. -/
theorem C10_precompute_none_inputs (X : Option Matrix)
    (y : Option (List Label)) (folds : Nat) (random_state : Option Nat)
    (kwargs : List String) (h : X = none ∨ y = none) :
    precompute_landmarking_class X y folds random_state kwargs = [] := by
  unfold precompute_landmarking_class
  rw [if_neg]
  rintro ⟨hX, hy, -⟩
  rcases h with h | h
  · subst h
    simp at hX
  · subst h
    simp at hy

/-- Witness for C10: `X` absent, `skf` key absent, still an empty update. -/
theorem C10_precompute_none_inputs_witness :
    precompute_landmarking_class none (some yex) 2 none [] = [] :=
  C10_precompute_none_inputs none (some yex) 2 none [] (Or.inl rfl)

/-! ### Frame property of the probes -/

/-- C9: no probe call changes the attribute matrix, the target vector or the
shared split-plan object; only `ft_random_node` touches the ambient state at
all, and only its global-generator component. -/
theorem C9_probes_preserve_inputs (treeFI : FeatImpFn) (score : ScoreFn)
    (dtcStump : Option Nat → ModelFn) (lda gnb knn1 : ModelFn)
    (random_state : Option Nat) (s : ProcState) :
    (ft_best_node score dtcStump random_state s).2 = s ∧
    ((ft_random_node score dtcStump random_state s).2.X = s.X ∧
      (ft_random_node score dtcStump random_state s).2.y = s.y ∧
      (ft_random_node score dtcStump random_state s).2.skf = s.skf) ∧
    (ft_worst_node treeFI score dtcStump random_state s).2 = s ∧
    (ft_linear_discr score lda s).2 = s ∧
    (ft_naive_bayes score gnb s).2 = s ∧
    (ft_one_nn score knn1 s).2 = s ∧
    (ft_elite_nn treeFI score knn1 random_state s).2 = s :=
  ⟨rfl, ⟨rfl, rfl, rfl⟩, rfl, rfl, rfl, rfl, rfl⟩

/-! ### Per-fold shape of the probe outputs -/

/-- C1: whenever a probe returns a score vector, that vector has exactly one
entry per fold of the split plan — length equal to the fold count — and the
entry at position `i` is the score the probe's fold body produces on the
`i`-th fold of the plan (for `ft_random_node`, with the column drawn for that
fold by the ambient generator). -/
theorem C1_probe_vector_per_fold (treeFI : FeatImpFn) (score : ScoreFn)
    (dtcStump : Option Nat → ModelFn) (lda gnb knn1 : ModelFn)
    (random_state : Option Nat) (s : ProcState) :
    (∀ v, (ft_best_node score dtcStump random_state s).1 = .ok v →
      v.length = s.skf.n_splits ∧ ∀ i, i < s.skf.n_splits →
        bestNodeFold s.X s.y score (dtcStump random_state)
          ((skfSplit s.skf s.X s.y).getD i ([], [])) = .ok (v.getD i 0)) ∧
    (∀ v, (ft_random_node score dtcStump random_state s).1 = .ok v →
      v.length = s.skf.n_splits ∧ ∀ i, i < s.skf.n_splits →
        randomNodeFold s.X s.y score (dtcStump random_state)
          ((s.rng.drop i).headD 0 % ncols s.X)
          ((skfSplit s.skf s.X s.y).getD i ([], [])) = .ok (v.getD i 0)) ∧
    (∀ v, (ft_worst_node treeFI score dtcStump random_state s).1 = .ok v →
      v.length = s.skf.n_splits ∧ ∀ i, i < s.skf.n_splits →
        worstNodeFold treeFI s.X s.y score (dtcStump random_state) random_state
          ((skfSplit s.skf s.X s.y).getD i ([], [])) = .ok (v.getD i 0)) ∧
    (∀ v, (ft_linear_discr score lda s).1 = .ok v →
      v.length = s.skf.n_splits ∧ ∀ i, i < s.skf.n_splits →
        bestNodeFold s.X s.y score lda
          ((skfSplit s.skf s.X s.y).getD i ([], [])) = .ok (v.getD i 0)) ∧
    (∀ v, (ft_naive_bayes score gnb s).1 = .ok v →
      v.length = s.skf.n_splits ∧ ∀ i, i < s.skf.n_splits →
        bestNodeFold s.X s.y score gnb
          ((skfSplit s.skf s.X s.y).getD i ([], [])) = .ok (v.getD i 0)) ∧
    (∀ v, (ft_one_nn score knn1 s).1 = .ok v →
      v.length = s.skf.n_splits ∧ ∀ i, i < s.skf.n_splits →
        bestNodeFold s.X s.y score knn1
          ((skfSplit s.skf s.X s.y).getD i ([], [])) = .ok (v.getD i 0)) ∧
    (∀ v, (ft_elite_nn treeFI score knn1 random_state s).1 = .ok v →
      v.length = s.skf.n_splits ∧ ∀ i, i < s.skf.n_splits →
        eliteNNFold treeFI s.X s.y score knn1 random_state
          ((skfSplit s.skf s.X s.y).getD i ([], [])) = .ok (v.getD i 0)) := by
  have hplan : (skfSplit s.skf s.X s.y).length = s.skf.n_splits :=
    skfSplit_length s.skf s.X s.y
  refine ⟨?_, ?_, ?_, ?_, ?_, ?_, ?_⟩
  case _ =>
    intro v hv
    obtain ⟨hlen, hget⟩ := foldLoop_ok _ _ v hv
    exact ⟨hplan ▸ hlen, fun i hi => hget ([], []) i (hplan ▸ hi)⟩
  case _ =>
    intro v hv
    have hfull : randomNodeLoop
        (randomNodeFold s.X s.y score (dtcStump random_state)) (ncols s.X)
        (skfSplit s.skf s.X s.y) s.rng =
        (.ok v, (randomNodeLoop
          (randomNodeFold s.X s.y score (dtcStump random_state)) (ncols s.X)
          (skfSplit s.skf s.X s.y) s.rng).2) := by
      rw [← hv]
      rfl
    obtain ⟨hlen, hget⟩ := randomNodeLoop_ok _ _ _ _ v _ hfull
    exact ⟨hplan ▸ hlen, fun i hi => hget ([], []) i (hplan ▸ hi)⟩
  case _ =>
    intro v hv
    obtain ⟨hlen, hget⟩ := foldLoop_ok _ _ v hv
    exact ⟨hplan ▸ hlen, fun i hi => hget ([], []) i (hplan ▸ hi)⟩
  case _ =>
    intro v hv
    obtain ⟨hlen, hget⟩ := foldLoop_ok _ _ v hv
    exact ⟨hplan ▸ hlen, fun i hi => hget ([], []) i (hplan ▸ hi)⟩
  case _ =>
    intro v hv
    obtain ⟨hlen, hget⟩ := foldLoop_ok _ _ v hv
    exact ⟨hplan ▸ hlen, fun i hi => hget ([], []) i (hplan ▸ hi)⟩
  case _ =>
    intro v hv
    obtain ⟨hlen, hget⟩ := foldLoop_ok _ _ v hv
    exact ⟨hplan ▸ hlen, fun i hi => hget ([], []) i (hplan ▸ hi)⟩
  case _ =>
    intro v hv
    obtain ⟨hlen, hget⟩ := foldLoop_ok _ _ v hv
    exact ⟨hplan ▸ hlen, fun i hi => hget ([], []) i (hplan ▸ hi)⟩

/-- Witness for C1: on the concrete fixture both `ft_best_node` and
`ft_random_node` return the two-fold vector `[1, 1]`, and the theorem applies
with the success hypotheses discharged by evaluation. -/
theorem C1_probe_vector_per_fold_witness :
    (([(1 : ℚ), 1]).length = 2 ∧ ∀ i, i < 2 →
      bestNodeFold Xex yex oneScore (constModel none)
        ((skfSplit ⟨2, none⟩ Xex yex).getD i ([], [])) =
        .ok ([(1 : ℚ), 1].getD i 0)) ∧
    (([(1 : ℚ), 1]).length = 2 ∧ ∀ i, i < 2 →
      randomNodeFold Xex yex oneScore (constModel none)
        ((([0, 0] : Rng).drop i).headD 0 % ncols Xex)
        ((skfSplit ⟨2, none⟩ Xex yex).getD i ([], [])) =
        .ok ([(1 : ℚ), 1].getD i 0)) := by
  have h := C1_probe_vector_per_fold constFI oneScore constModel
    (constModel none) (constModel none) (constModel none) none sEx1
  exact ⟨h.1 [1, 1] rfl, h.2.1 [1, 1] rfl⟩

/-! ### Failure propagation -/

/-- C5: if the model fit fails on any fold — the fold body raises — the probe
ends in an exception: no default score is substituted and no partial vector of
earlier folds is returned, for any of the seven probes. -/
theorem C5_fit_failure_propagates (treeFI : FeatImpFn) (score : ScoreFn)
    (dtcStump : Option Nat → ModelFn) (lda gnb knn1 : ModelFn)
    (random_state : Option Nat) (s : ProcState) :
    (∀ i, i < s.skf.n_splits → ∀ e,
      bestNodeFold s.X s.y score (dtcStump random_state)
        ((skfSplit s.skf s.X s.y).getD i ([], [])) = .error e →
      ∃ e2, (ft_best_node score dtcStump random_state s).1 = .error e2) ∧
    (∀ i, i < s.skf.n_splits → ∀ e,
      randomNodeFold s.X s.y score (dtcStump random_state)
        ((s.rng.drop i).headD 0 % ncols s.X)
        ((skfSplit s.skf s.X s.y).getD i ([], [])) = .error e →
      ∃ e2, (ft_random_node score dtcStump random_state s).1 = .error e2) ∧
    (∀ i, i < s.skf.n_splits → ∀ e,
      worstNodeFold treeFI s.X s.y score (dtcStump random_state) random_state
        ((skfSplit s.skf s.X s.y).getD i ([], [])) = .error e →
      ∃ e2, (ft_worst_node treeFI score dtcStump random_state s).1 = .error e2) ∧
    (∀ i, i < s.skf.n_splits → ∀ e,
      bestNodeFold s.X s.y score lda
        ((skfSplit s.skf s.X s.y).getD i ([], [])) = .error e →
      ∃ e2, (ft_linear_discr score lda s).1 = .error e2) ∧
    (∀ i, i < s.skf.n_splits → ∀ e,
      bestNodeFold s.X s.y score gnb
        ((skfSplit s.skf s.X s.y).getD i ([], [])) = .error e →
      ∃ e2, (ft_naive_bayes score gnb s).1 = .error e2) ∧
    (∀ i, i < s.skf.n_splits → ∀ e,
      bestNodeFold s.X s.y score knn1
        ((skfSplit s.skf s.X s.y).getD i ([], [])) = .error e →
      ∃ e2, (ft_one_nn score knn1 s).1 = .error e2) ∧
    (∀ i, i < s.skf.n_splits → ∀ e,
      eliteNNFold treeFI s.X s.y score knn1 random_state
        ((skfSplit s.skf s.X s.y).getD i ([], [])) = .error e →
      ∃ e2, (ft_elite_nn treeFI score knn1 random_state s).1 = .error e2) := by
  have hplan : (skfSplit s.skf s.X s.y).length = s.skf.n_splits :=
    skfSplit_length s.skf s.X s.y
  refine ⟨?_, ?_, ?_, ?_, ?_, ?_, ?_⟩
  case _ =>
    intro i hi e hbody
    exact foldLoop_error _ _ ([], []) i (hplan ▸ hi) e hbody
  case _ =>
    intro i hi e hbody
    exact randomNodeLoop_error _ _ _ s.rng ([], []) i (hplan ▸ hi) e hbody
  case _ =>
    intro i hi e hbody
    exact foldLoop_error _ _ ([], []) i (hplan ▸ hi) e hbody
  case _ =>
    intro i hi e hbody
    exact foldLoop_error _ _ ([], []) i (hplan ▸ hi) e hbody
  case _ =>
    intro i hi e hbody
    exact foldLoop_error _ _ ([], []) i (hplan ▸ hi) e hbody
  case _ =>
    intro i hi e hbody
    exact foldLoop_error _ _ ([], []) i (hplan ▸ hi) e hbody
  case _ =>
    intro i hi e hbody
    exact foldLoop_error _ _ ([], []) i (hplan ▸ hi) e hbody

/-- Witness for C5: a naive-Bayes fit that fails on fold 0 makes the whole
`ft_naive_bayes` call raise. -/
theorem C5_fit_failure_propagates_witness :
    ∃ e2, (ft_naive_bayes oneScore failModel sEx1).1 = .error e2 :=
  (C5_fit_failure_propagates constFI oneScore constModel
    (constModel none) failModel (constModel none) none sEx1).2.2.2.2.1
    0 (by decide) "degenerate training partition" rfl

/-! ### Determinism of the non-random probes -/

/-- C8: the six probes other than `ft_random_node` never read the ambient
global generator: two calls agreeing on the data, the split plan, the scoring
function, the model family and the seed return identical score vectors, for
any two ambient generator states. -/
theorem C8_deterministic_probes (treeFI : FeatImpFn) (score : ScoreFn)
    (dtcStump : Option Nat → ModelFn) (lda gnb knn1 : ModelFn)
    (random_state : Option Nat) (s1 s2 : ProcState)
    (hX : s1.X = s2.X) (hy : s1.y = s2.y) (hskf : s1.skf = s2.skf) :
    (ft_best_node score dtcStump random_state s1).1 =
      (ft_best_node score dtcStump random_state s2).1 ∧
    (ft_worst_node treeFI score dtcStump random_state s1).1 =
      (ft_worst_node treeFI score dtcStump random_state s2).1 ∧
    (ft_linear_discr score lda s1).1 = (ft_linear_discr score lda s2).1 ∧
    (ft_naive_bayes score gnb s1).1 = (ft_naive_bayes score gnb s2).1 ∧
    (ft_one_nn score knn1 s1).1 = (ft_one_nn score knn1 s2).1 ∧
    (ft_elite_nn treeFI score knn1 random_state s1).1 =
      (ft_elite_nn treeFI score knn1 random_state s2).1 := by
  obtain ⟨X1, y1, k1, g1⟩ := s1
  obtain ⟨X2, y2, k2, g2⟩ := s2
  simp only at hX hy hskf
  subst hX
  subst hy
  subst hskf
  exact ⟨rfl, rfl, rfl, rfl, rfl, rfl⟩

/-- Witness for C8: the two fixture states differ only in the ambient
generator, and every non-random probe agrees on them. -/
theorem C8_deterministic_probes_witness :
    (ft_best_node headScore colModel (some 0) sEx1).1 =
      (ft_best_node headScore colModel (some 0) sEx2).1 ∧
    (ft_worst_node constFI headScore colModel (some 0) sEx1).1 =
      (ft_worst_node constFI headScore colModel (some 0) sEx2).1 ∧
    (ft_linear_discr headScore (colModel none) sEx1).1 =
      (ft_linear_discr headScore (colModel none) sEx2).1 ∧
    (ft_naive_bayes headScore (colModel none) sEx1).1 =
      (ft_naive_bayes headScore (colModel none) sEx2).1 ∧
    (ft_one_nn headScore (colModel none) sEx1).1 =
      (ft_one_nn headScore (colModel none) sEx2).1 ∧
    (ft_elite_nn constFI headScore (colModel none) (some 0) sEx1).1 =
      (ft_elite_nn constFI headScore (colModel none) (some 0) sEx2).1 :=
  C8_deterministic_probes constFI headScore colModel (colModel none)
    (colModel none) (colModel none) (some 0) sEx1 sEx2 rfl rfl rfl

/-! ### Randomness of `ft_random_node` -/

/-- C3 fails on the code: `ft_random_node` draws its per-fold column from the
ambient global generator (`np.random.randint`), not from `random_state`.  Two
calls with the same data, split plan, scoring function, model family and seed
— differing only in the state the ambient generator happens to be in — return
different score vectors. -/
theorem C3_seed_determinism_counterexample :
    sEx1.X = sEx2.X ∧ sEx1.y = sEx2.y ∧ sEx1.skf = sEx2.skf ∧
    (ft_random_node headScore colModel (some 0) sEx1).1 ≠
      (ft_random_node headScore colModel (some 0) sEx2).1 := by
  refine ⟨rfl, rfl, rfl, ?_⟩
  have h1 : (ft_random_node headScore colModel (some 0) sEx1).1 =
      .ok [0, 0] := rfl
  have h2 : (ft_random_node headScore colModel (some 0) sEx2).1 =
      .ok [1, 1] := rfl
  rw [h1, h2]
  intro h
  rw [Except.ok.injEq] at h
  exact absurd h (by decide)

/-- C3 amended: `ft_random_node` is reproduced only by fixing the ambient
global generator state along with the seed — two calls agreeing on the data,
the split plan, the scoring function, the model family, the seed and the
ambient generator state return identical outputs (generator advance
included). -/
theorem C3_rng_state_determinism (score : ScoreFn)
    (dtcStump : Option Nat → ModelFn) (random_state : Option Nat)
    (s1 s2 : ProcState) (hX : s1.X = s2.X) (hy : s1.y = s2.y)
    (hskf : s1.skf = s2.skf) (hrng : s1.rng = s2.rng) :
    ft_random_node score dtcStump random_state s1 =
      ft_random_node score dtcStump random_state s2 := by
  obtain ⟨X1, y1, k1, g1⟩ := s1
  obtain ⟨X2, y2, k2, g2⟩ := s2
  simp only at hX hy hskf hrng
  subst hX
  subst hy
  subst hskf
  subst hrng
  rfl

/-- Witness for the amended C3 at a concrete state. -/
theorem C3_rng_state_determinism_witness :
    ft_random_node headScore colModel (some 0) sEx1 =
      ft_random_node headScore colModel (some 0) ⟨Xex, yex, ⟨2, none⟩, [0, 0]⟩ :=
  C3_rng_state_determinism headScore colModel (some 0) sEx1
    ⟨Xex, yex, ⟨2, none⟩, [0, 0]⟩ rfl rfl rfl rfl

/-! ### The importance ranking -/

/-- C6: `importance` returns every column index exactly once, ordered
ascending by the fitted tree's impurity-reduction importances: position 0
carries a least-important column and the last position a most-important
column. -/
theorem C6_importance_ascending (treeFI : FeatImpFn) (X : Matrix)
    (y : List Label) (random_state : Option Nat)
    (hlen : (treeFI X y random_state).length = ncols X) :
    (importance treeFI X y random_state).Perm (List.range (ncols X)) ∧
    List.Pairwise
      (fun i j => (treeFI X y random_state).getD i 0 ≤
        (treeFI X y random_state).getD j 0)
      (importance treeFI X y random_state) ∧
    (0 < ncols X → ∀ j, j < ncols X →
      (treeFI X y random_state).getD
          ((importance treeFI X y random_state).getD 0 0) 0 ≤
        (treeFI X y random_state).getD j 0) ∧
    (0 < ncols X → ∀ j, j < ncols X →
      (treeFI X y random_state).getD j 0 ≤
        (treeFI X y random_state).getD
          ((importance treeFI X y random_state).getLastD 0) 0) := by
  refine ⟨?_, argsort_pairwise _, ?_, ?_⟩
  · rw [← hlen]
    exact argsort_perm _
  · intro hpos j hj
    exact argsort_getD_zero_min _ (hlen ▸ hpos) j (hlen ▸ hj)
  · intro hpos j hj
    exact argsort_getLastD_max _ (hlen ▸ hpos) j (hlen ▸ hj)

/-- Witness for C6 on the fixed importance vector `[3, 1]`: the ranking is
`[1, 0]`, a permutation of the two columns, ascending. -/
theorem C6_importance_ascending_witness :
    (importance constFI Xex yex none).Perm (List.range (ncols Xex)) ∧
    List.Pairwise
      (fun i j => (constFI Xex yex none).getD i 0 ≤
        (constFI Xex yex none).getD j 0)
      (importance constFI Xex yex none) ∧
    (0 < ncols Xex → ∀ j, j < ncols Xex →
      (constFI Xex yex none).getD
          ((importance constFI Xex yex none).getD 0 0) 0 ≤
        (constFI Xex yex none).getD j 0) ∧
    (0 < ncols Xex → ∀ j, j < ncols Xex →
      (constFI Xex yex none).getD j 0 ≤
        (constFI Xex yex none).getD
          ((importance constFI Xex yex none).getLastD 0) 0) :=
  C6_importance_ascending constFI Xex yex none (by decide)

/-! ### Column choice of `ft_worst_node` and `ft_elite_nn` -/

/-- C7: on each fold, `ft_worst_node` trains and tests on exactly the single
column at rank position 0 of the importance ranking recomputed on that fold's
training subset — a column of minimal importance — and `ft_elite_nn` trains
and tests on exactly the single column at the last rank position — a column
of maximal importance. -/
theorem C7_worst_elite_column_choice (treeFI : FeatImpFn) (score : ScoreFn)
    (dtcStump : Option Nat → ModelFn) (knn1 : ModelFn)
    (random_state : Option Nat) (s : ProcState) :
    ((ft_worst_node treeFI score dtcStump random_state s).1 =
      foldLoop (worstNodeFold treeFI s.X s.y score (dtcStump random_state)
        random_state) (skfSplit s.skf s.X s.y)) ∧
    (∀ fd : Fold,
      worstNodeFold treeFI s.X s.y score (dtcStump random_state) random_state
          fd =
        ((dtcStump random_state)
          (selCols [(importance treeFI (selRows fd.1 s.X)
              (selLabels fd.1 s.y) random_state).getD 0 0]
            (selRows fd.1 s.X))
          (selLabels fd.1 s.y)
          (selCols [(importance treeFI (selRows fd.1 s.X)
              (selLabels fd.1 s.y) random_state).getD 0 0]
            (selRows fd.2 s.X))).map
          (fun pred => score (selLabels fd.2 s.y) pred)) ∧
    (∀ fd ∈ skfSplit s.skf s.X s.y,
      0 < (treeFI (selRows fd.1 s.X) (selLabels fd.1 s.y) random_state).length →
      (importance treeFI (selRows fd.1 s.X) (selLabels fd.1 s.y)
          random_state).getD 0 0 <
        (treeFI (selRows fd.1 s.X) (selLabels fd.1 s.y) random_state).length ∧
      ∀ j, j < (treeFI (selRows fd.1 s.X) (selLabels fd.1 s.y)
          random_state).length →
        (treeFI (selRows fd.1 s.X) (selLabels fd.1 s.y) random_state).getD
            ((importance treeFI (selRows fd.1 s.X) (selLabels fd.1 s.y)
              random_state).getD 0 0) 0 ≤
          (treeFI (selRows fd.1 s.X) (selLabels fd.1 s.y) random_state).getD
            j 0) ∧
    ((ft_elite_nn treeFI score knn1 random_state s).1 =
      foldLoop (eliteNNFold treeFI s.X s.y score knn1 random_state)
        (skfSplit s.skf s.X s.y)) ∧
    (∀ fd : Fold,
      eliteNNFold treeFI s.X s.y score knn1 random_state fd =
        (knn1
          (selCols [(importance treeFI (selRows fd.1 s.X)
              (selLabels fd.1 s.y) random_state).getLastD 0]
            (selRows fd.1 s.X))
          (selLabels fd.1 s.y)
          (selCols [(importance treeFI (selRows fd.1 s.X)
              (selLabels fd.1 s.y) random_state).getLastD 0]
            (selRows fd.2 s.X))).map
          (fun pred => score (selLabels fd.2 s.y) pred)) ∧
    (∀ fd ∈ skfSplit s.skf s.X s.y,
      0 < (treeFI (selRows fd.1 s.X) (selLabels fd.1 s.y) random_state).length →
      (importance treeFI (selRows fd.1 s.X) (selLabels fd.1 s.y)
          random_state).getLastD 0 <
        (treeFI (selRows fd.1 s.X) (selLabels fd.1 s.y) random_state).length ∧
      ∀ j, j < (treeFI (selRows fd.1 s.X) (selLabels fd.1 s.y)
          random_state).length →
        (treeFI (selRows fd.1 s.X) (selLabels fd.1 s.y) random_state).getD
            j 0 ≤
          (treeFI (selRows fd.1 s.X) (selLabels fd.1 s.y) random_state).getD
            ((importance treeFI (selRows fd.1 s.X) (selLabels fd.1 s.y)
              random_state).getLastD 0) 0) := by
  refine ⟨rfl, fun fd => rfl, ?_, rfl, fun fd => rfl, ?_⟩
  · intro fd _ hpos
    exact ⟨argsort_getD_zero_lt _ hpos,
      fun j hj => argsort_getD_zero_min _ hpos j hj⟩
  · intro fd _ hpos
    exact ⟨argsort_getLastD_lt _ hpos,
      fun j hj => argsort_getLastD_max _ hpos j hj⟩

/-- Witness for C7 on the fixture: with importances `[3, 1]` on each fold's
training subset, `ft_worst_node` keeps column 1 (minimal importance) and
`ft_elite_nn` keeps column 0 (maximal importance) on fold 0 of the concrete
plan. -/
theorem C7_worst_elite_column_choice_witness :
    ((importance constFI
        (selRows ((skfSplit ⟨2, none⟩ Xex yex).getD 0 ([], [])).1 Xex)
        (selLabels ((skfSplit ⟨2, none⟩ Xex yex).getD 0 ([], [])).1 yex)
        none).getD 0 0 < 2 ∧
      ∀ j, j < 2 →
        (constFI
            (selRows ((skfSplit ⟨2, none⟩ Xex yex).getD 0 ([], [])).1 Xex)
            (selLabels ((skfSplit ⟨2, none⟩ Xex yex).getD 0 ([], [])).1 yex)
            none).getD
            ((importance constFI
              (selRows ((skfSplit ⟨2, none⟩ Xex yex).getD 0 ([], [])).1 Xex)
              (selLabels ((skfSplit ⟨2, none⟩ Xex yex).getD 0 ([], [])).1 yex)
              none).getD 0 0) 0 ≤
          (constFI
            (selRows ((skfSplit ⟨2, none⟩ Xex yex).getD 0 ([], [])).1 Xex)
            (selLabels ((skfSplit ⟨2, none⟩ Xex yex).getD 0 ([], [])).1 yex)
            none).getD j 0) ∧
    ((importance constFI
        (selRows ((skfSplit ⟨2, none⟩ Xex yex).getD 0 ([], [])).1 Xex)
        (selLabels ((skfSplit ⟨2, none⟩ Xex yex).getD 0 ([], [])).1 yex)
        none).getLastD 0 < 2 ∧
      ∀ j, j < 2 →
        (constFI
            (selRows ((skfSplit ⟨2, none⟩ Xex yex).getD 0 ([], [])).1 Xex)
            (selLabels ((skfSplit ⟨2, none⟩ Xex yex).getD 0 ([], [])).1 yex)
            none).getD j 0 ≤
          (constFI
            (selRows ((skfSplit ⟨2, none⟩ Xex yex).getD 0 ([], [])).1 Xex)
            (selLabels ((skfSplit ⟨2, none⟩ Xex yex).getD 0 ([], [])).1 yex)
            none).getD
            ((importance constFI
              (selRows ((skfSplit ⟨2, none⟩ Xex yex).getD 0 ([], [])).1 Xex)
              (selLabels ((skfSplit ⟨2, none⟩ Xex yex).getD 0 ([], [])).1 yex)
              none).getLastD 0) 0) := by
  have h := C7_worst_elite_column_choice constFI oneScore constModel
    (constModel none) none sEx1
  refine ⟨h.2.2.1 ((skfSplit ⟨2, none⟩ Xex yex).getD 0 ([], []))
      (by decide) (by decide),
    h.2.2.2.2.2 ((skfSplit ⟨2, none⟩ Xex yex).getD 0 ([], []))
      (by decide) (by decide)⟩

end PyMFE
